import Mathlib

/-!
Verification development for the swiftform repository's real-time
progress-streaming subsystem and its frontend pages.

The frontend pages (`HistoryPage.tsx`, the `UploadWithAudit` component)
are embedded directly from the TypeScript source.  The backend core
(event model, session channel registry, conversion pipeline driver,
streaming delivery endpoint) is not part of the available source tree,
so it is modelled from the specification text; every such definition is
marked `Modelled from the spec:` in its doc comment.
-/

namespace SwiftForm

/-- Modelled from the spec: the closed event-type enumeration
`upload | extraction | processing | api_request | api_response | success | error`
(backend `services/progress_tracker.py` is missing from the source tree). -/
inductive EventType where
  | upload
  | extraction
  | processing
  | api_request
  | api_response
  | success
  | error
deriving DecidableEq, Repr

/-- Modelled from the spec: `success` and `error` are the two terminal markers. -/
def EventType.isTerminal : EventType → Bool
  | .success => true
  | .error => true
  | _ => false

/-- Modelled from the spec: a progress event with timestamp, type, message and
an opaque string-keyed payload (backend event model is missing from src/). -/
structure ProgressEvent where
  timestamp : Nat
  event_type : EventType
  message : String
  data : List (String × String)
deriving DecidableEq, Repr

/-- Helper constructing a driver event at a fixed model timestamp. -/
def mkEvent (t : EventType) (msg : String) (d : List (String × String)) : ProgressEvent :=
  { timestamp := 0, event_type := t, message := msg, data := d }

/-- Modelled from the spec: the channel state, `open | terminated`
(`opened` stands for the spec's `open`, a Lean keyword). -/
inductive ChState where
  | opened
  | terminated
deriving DecidableEq, Repr

/-- Modelled from the spec: a per-session channel with its ordered buffer,
state, time of last publish, and time of termination (for reaping). -/
structure Channel where
  buffer : List ProgressEvent
  state : ChState
  lastPublish : Nat
  terminatedAt : Option Nat
deriving DecidableEq, Repr

/-- Modelled from the spec: a freshly created, empty, open channel. -/
def freshChannel : Channel :=
  { buffer := [], state := .opened, lastPublish := 0, terminatedAt := none }

/-- Modelled from the spec: registry-level error vocabulary
(`SessionTerminated` on publish after termination). -/
inductive RegErr where
  | SessionTerminated
deriving DecidableEq, Repr

/-- Modelled from the spec: `publish` appends the event to the buffer of an
open channel (moving to `terminated` when the event is terminal, per the
channel lifecycle) and fails with `SessionTerminated` on a terminated one. -/
def publish (c : Channel) (e : ProgressEvent) : Except RegErr Channel :=
  match c.state with
  | .terminated => .error .SessionTerminated
  | .opened =>
      .ok { buffer := c.buffer ++ [e]
            state := if e.event_type.isTerminal then .terminated else .opened
            lastPublish := e.timestamp
            terminatedAt := if e.event_type.isTerminal then some e.timestamp else none }

/-- Modelled from the spec: `terminate` marks the channel `terminated`. -/
def terminate (c : Channel) (now : Nat) : Channel :=
  { c with state := .terminated, terminatedAt := some now }

/-- Modelled from the spec: the synthesized `error` event appended to an
abandoned (idle) channel before removal. -/
def synthesizedIdleError (now : Nat) : ProgressEvent :=
  { timestamp := now, event_type := .error
    message := "session abandoned: idle timeout", data := [("stage", "idle_timeout")] }

/-- Modelled from the spec: transitioning an abandoned open channel to
`terminated` with a synthesized `error` event. -/
def idleReap (c : Channel) (now : Nat) : Channel :=
  { buffer := c.buffer ++ [synthesizedIdleError now]
    state := .terminated
    lastPublish := c.lastPublish
    terminatedAt := some now }

/-- Modelled from the spec: `subscribe` first yields all currently buffered
events in order; the replayed snapshot is the buffer. -/
def subscribe (c : Channel) : List ProgressEvent :=
  c.buffer

/-- Modelled from the spec: one serialized text message per event, carrying
timestamp, event type, and message. -/
def EventType.wireName : EventType → String
  | .upload => "upload"
  | .extraction => "extraction"
  | .processing => "processing"
  | .api_request => "api_request"
  | .api_response => "api_response"
  | .success => "success"
  | .error => "error"

/-- Modelled from the spec: serialization of one event for the outbound
text-event protocol. -/
def serializeEvent (e : ProgressEvent) : String :=
  "data: timestamp=" ++ toString e.timestamp ++ " event_type=" ++ e.event_type.wireName
    ++ " message=" ++ e.message

/-- Modelled from the spec: the delivery endpoint serializes and writes each
subscribed event in arrival order. -/
def serve (c : Channel) : List String :=
  (subscribe c).map serializeEvent

/-- Modelled from the spec: one step of the channel under the registry
operations (a successful publish, an explicit terminate, or the idle-timeout
transition applied to an open channel). -/
inductive Step : Channel → Channel → Prop where
  | pub {c c' : Channel} (e : ProgressEvent) : publish c e = .ok c' → Step c c'
  | term {c : Channel} (now : Nat) : Step c (terminate c now)
  | idle {c : Channel} (now : Nat) : c.state = .opened → Step c (idleReap c now)

/-- Reflexive-transitive closure of `Step`: every interleaving of
publish/terminate/idle-reap operations. -/
inductive StepsTo : Channel → Channel → Prop where
  | refl (c : Channel) : StepsTo c c
  | tail {c c' c'' : Channel} : StepsTo c c' → Step c' c'' → StepsTo c c''

/-- A channel reachable from a fresh channel by some interleaving. -/
def Reach (c : Channel) : Prop :=
  StepsTo freshChannel c

/-- No event of the list is terminal. -/
def terminalFree (l : List ProgressEvent) : Prop :=
  ∀ e ∈ l, e.event_type.isTerminal = false

/-- The channel invariant: all events strictly before the last are
non-terminal, and an open channel's whole buffer is terminal-free. -/
def chanInv (c : Channel) : Prop :=
  terminalFree c.buffer.dropLast ∧ (c.state = .opened → terminalFree c.buffer)

theorem terminalFree_append_singleton {l : List ProgressEvent} {e : ProgressEvent}
    (hl : terminalFree l) (he : e.event_type.isTerminal = false) :
    terminalFree (l ++ [e]) := by
  intro x hx
  rcases List.mem_append.mp hx with h | h
  · exact hl x h
  · rcases List.mem_singleton.mp h with rfl
    exact he

theorem chanInv_step {c c' : Channel} (h : Step c c') (hc : chanInv c) : chanInv c' := by
  rcases hc with ⟨hdrop, hopen⟩
  cases h with
  | pub e hpub =>
      unfold publish at hpub
      cases hst : c.state with
      | terminated => rw [hst] at hpub; cases hpub
      | opened =>
          rw [hst] at hpub
          cases hpub
          constructor
          · simpa [List.dropLast_concat] using hopen hst
          · intro hs
            simp only at hs
            cases hterm : e.event_type.isTerminal with
            | true => simp [hterm] at hs
            | false =>
                exact terminalFree_append_singleton (hopen hst) hterm
  | term now =>
      exact ⟨hdrop, by intro hs; cases hs⟩
  | idle now hop =>
      constructor
      · simpa [idleReap, List.dropLast_concat] using hopen hop
      · intro hs; cases hs

theorem chanInv_of_stepsTo {c c' : Channel} (h : StepsTo c c') (hc : chanInv c) :
    chanInv c' := by
  induction h with
  | refl => exact hc
  | tail _ hstep ih => exact chanInv_step hstep ih

theorem chanInv_fresh : chanInv freshChannel := by
  constructor
  · intro e he; cases he
  · intro _ e he; cases he

theorem chanInv_of_reach {c : Channel} (h : Reach c) : chanInv c :=
  chanInv_of_stepsTo h chanInv_fresh

theorem terminalFilter_le_one_of_chanInv {c : Channel} (hc : chanInv c) :
    (c.buffer.filter (fun e => e.event_type.isTerminal)).length ≤ 1 := by
  rcases hc with ⟨hdrop, -⟩
  rcases List.eq_nil_or_concat c.buffer with hb | ⟨l, e, hb⟩
  · simp [hb]
  · rw [hb] at hdrop ⊢
    rw [List.concat_eq_append] at hdrop ⊢
    rw [List.dropLast_concat] at hdrop
    rw [List.filter_append]
    have hl : l.filter (fun e => e.event_type.isTerminal) = [] := by
      rw [List.filter_eq_nil_iff]
      intro a ha
      simp [hdrop a ha]
    rw [hl]
    simp only [List.nil_append]
    cases hterm : e.event_type.isTerminal <;> simp [List.filter, hterm]

theorem terminal_only_last_of_chanInv {c : Channel} (hc : chanInv c) :
    ∀ i (hi : i < c.buffer.length),
      (c.buffer.get ⟨i, hi⟩).event_type.isTerminal = true → i = c.buffer.length - 1 := by
  rcases hc with ⟨hdrop, -⟩
  intro i hi hterm
  by_contra hne
  have hlt : i < c.buffer.length - 1 := by omega
  have hdl : i < c.buffer.dropLast.length := by
    rw [List.length_dropLast]; exact hlt
  have hmem : c.buffer.get ⟨i, hi⟩ ∈ c.buffer.dropLast := by
    have := List.getElem_dropLast c.buffer i hdl
    rw [List.get_eq_getElem]
    rw [← this]
    exact List.getElem_mem hdl
  have := hdrop _ hmem
  rw [hterm] at this
  cases this

theorem buffer_extends_of_step {c c' : Channel} (h : Step c c') :
    ∃ s, c'.buffer = c.buffer ++ s := by
  cases h with
  | pub e hpub =>
      unfold publish at hpub
      cases hst : c.state with
      | terminated => rw [hst] at hpub; cases hpub
      | opened =>
          rw [hst] at hpub
          cases hpub
          exact ⟨[e], rfl⟩
  | term now => exact ⟨[], by simp [terminate]⟩
  | idle now hop => exact ⟨[synthesizedIdleError now], rfl⟩

theorem buffer_extends_of_stepsTo {c c' : Channel} (h : StepsTo c c') :
    ∃ s, c'.buffer = c.buffer ++ s := by
  induction h with
  | refl => exact ⟨[], by simp⟩
  | tail _ hstep ih =>
      rcases ih with ⟨s₁, h₁⟩
      rcases buffer_extends_of_step hstep with ⟨s₂, h₂⟩
      exact ⟨s₁ ++ s₂, by rw [h₂, h₁, List.append_assoc]⟩

/-- A sample non-terminal event used in concrete witnesses. -/
def sampleUpload : ProgressEvent := mkEvent .upload "File uploaded" [("filename", "a.pdf")]

/-- A sample terminal event used in concrete witnesses. -/
def sampleSuccess : ProgressEvent := mkEvent .success "Schema generated" []

/-- The concrete channel obtained by publishing `sampleSuccess` on a fresh channel. -/
def chanAfterSuccess : Channel :=
  { buffer := [sampleSuccess], state := .terminated, lastPublish := 0, terminatedAt := some 0 }

/-- C1: for every channel reachable from a fresh channel by any interleaving of
publish/terminate/idle operations, the buffered event sequence contains at most
one terminal (`success` or `error`) event, and every terminal event sits at the
last position, so no event is ever appended after a terminal event. -/
theorem c1_at_most_one_terminal (c : Channel) (h : Reach c) :
    (c.buffer.filter (fun e => e.event_type.isTerminal)).length ≤ 1 ∧
    ∀ i (hi : i < c.buffer.length),
      (c.buffer.get ⟨i, hi⟩).event_type.isTerminal = true → i = c.buffer.length - 1 :=
  ⟨terminalFilter_le_one_of_chanInv (chanInv_of_reach h),
   terminal_only_last_of_chanInv (chanInv_of_reach h)⟩

/-- Witness for C1 at the concrete channel reached by publishing one terminal event. -/
theorem c1_at_most_one_terminal_witness :
    (chanAfterSuccess.buffer.filter (fun e => e.event_type.isTerminal)).length ≤ 1 ∧
    ∀ i (hi : i < chanAfterSuccess.buffer.length),
      (chanAfterSuccess.buffer.get ⟨i, hi⟩).event_type.isTerminal = true →
        i = chanAfterSuccess.buffer.length - 1 :=
  c1_at_most_one_terminal chanAfterSuccess
    (StepsTo.tail (StepsTo.refl freshChannel) (Step.pub sampleSuccess rfl))

/-- The concrete channel obtained by publishing `sampleUpload` on a fresh channel. -/
def chanAfterUpload : Channel :=
  { buffer := [sampleUpload], state := .opened, lastPublish := 0, terminatedAt := none }

/-- C2: a subscriber attaching when N events are buffered receives exactly those
N events first, each at its original position, before any event published after
the subscription; the whole stream is the (finite) final buffer. -/
theorem c2_buffered_replay_first (c c' : Channel) (h : StepsTo c c') :
    (∃ newEvents, subscribe c' = subscribe c ++ newEvents) ∧
    (∀ i : Nat, i < (subscribe c).length → (subscribe c')[i]? = (subscribe c)[i]?) := by
  rcases buffer_extends_of_stepsTo h with ⟨s, hs⟩
  constructor
  · exact ⟨s, hs⟩
  · intro i hi
    show c'.buffer[i]? = c.buffer[i]?
    rw [hs]
    exact List.getElem?_append_left hi

/-- Witness for C2: a fresh channel stepping to the channel holding one event. -/
theorem c2_buffered_replay_first_witness :
    (∃ newEvents, subscribe chanAfterUpload = subscribe freshChannel ++ newEvents) ∧
    (∀ i : Nat, i < (subscribe freshChannel).length →
      (subscribe chanAfterUpload)[i]? = (subscribe freshChannel)[i]?) :=
  c2_buffered_replay_first freshChannel chanAfterUpload
    (StepsTo.tail (StepsTo.refl freshChannel) (Step.pub sampleUpload rfl))

/-- Modelled from the spec: the complete sequence a subscriber that attached at
`snapshot` has observed once the channel has advanced to `final` — the replayed
snapshot buffer followed by everything published after it. -/
def observedFrom (snapshot final : Channel) : List ProgressEvent :=
  subscribe snapshot ++ (subscribe final).drop (subscribe snapshot).length

theorem observedFrom_eq_buffer {c cf : Channel} (h : StepsTo c cf) :
    observedFrom c cf = cf.buffer := by
  rcases buffer_extends_of_stepsTo h with ⟨s, hs⟩
  unfold observedFrom subscribe
  rw [hs, List.drop_left]

/-- C3: the delivery endpoint writes one serialized message per event, in exactly
the published (buffer) order; and any two subscribers to the same session, having
drained the channel to the same final state, have observed identical event
sequences (same order, same content). -/
theorem c3_delivery_order_and_fanout (c c1 c2 cf : Channel)
    (h1 : StepsTo c1 cf) (h2 : StepsTo c2 cf) :
    (∀ i : Nat, (serve c)[i]? = (c.buffer[i]?).map serializeEvent) ∧
    observedFrom c1 cf = observedFrom c2 cf := by
  constructor
  · intro i
    unfold serve subscribe
    simp
  · rw [observedFrom_eq_buffer h1, observedFrom_eq_buffer h2]

/-- Witness for C3: two subscribers, one attaching at the fresh channel and one
at the one-event channel, draining to the same final state. -/
theorem c3_delivery_order_and_fanout_witness :
    (∀ i : Nat, (serve chanAfterUpload)[i]? = (chanAfterUpload.buffer[i]?).map serializeEvent) ∧
    observedFrom freshChannel chanAfterUpload = observedFrom chanAfterUpload chanAfterUpload :=
  c3_delivery_order_and_fanout chanAfterUpload freshChannel chanAfterUpload chanAfterUpload
    (StepsTo.tail (StepsTo.refl freshChannel) (Step.pub sampleUpload rfl))
    (StepsTo.refl chanAfterUpload)

/-- C4: publishing on a terminated channel fails with `SessionTerminated` and
produces no updated channel (the buffer is unchanged); publishing on an open
channel succeeds and appends exactly the given event at the end of the buffer. -/
theorem c4_publish_success_and_failure (c : Channel) (e : ProgressEvent) :
    (c.state = .terminated → publish c e = .error .SessionTerminated) ∧
    (c.state = .opened → ∃ c', publish c e = .ok c' ∧ c'.buffer = c.buffer ++ [e]) := by
  constructor
  · intro hst
    unfold publish
    rw [hst]
  · intro hst
    unfold publish
    rw [hst]
    exact ⟨_, rfl, rfl⟩

/-- Witness for C4 at a concrete terminated channel and a concrete event. -/
theorem c4_publish_success_and_failure_witness :
    (chanAfterSuccess.state = .terminated →
      publish chanAfterSuccess sampleUpload = .error .SessionTerminated) ∧
    (chanAfterSuccess.state = .opened → ∃ c',
      publish chanAfterSuccess sampleUpload = .ok c' ∧
      c'.buffer = chanAfterSuccess.buffer ++ [sampleUpload]) :=
  c4_publish_success_and_failure chanAfterSuccess sampleUpload


/-- Modelled from the spec: the process-wide registry table mapping a session
identifier to its channel (an association list). -/
abbrev Registry := List (String × Channel)

/-- Modelled from the spec: looking a session's channel up in the registry. -/
def lookupCh : Registry → String → Option Channel
  | [], _ => none
  | (k, c) :: rest, sid => if k = sid then some c else lookupCh rest sid

/-- Modelled from the spec: replacing a session's channel in the registry. -/
def setCh : Registry → String → Channel → Registry
  | [], _, _ => []
  | (k, c) :: rest, sid, c' =>
      if k = sid then (sid, c') :: rest else (k, c) :: setCh rest sid c'

/-- Modelled from the spec: `get_or_create(session_id)` returns the existing
channel if present, otherwise creates an empty one. -/
def get_or_create (r : Registry) (sid : String) : Registry :=
  match lookupCh r sid with
  | some _ => r
  | none => (sid, freshChannel) :: r

/-- Modelled from the spec: registry-level publish — the channel is created on
first publish, then the event is appended through `publish`. -/
def publishR (r : Registry) (sid : String) (e : ProgressEvent) : Except RegErr Registry :=
  match lookupCh (get_or_create r sid) sid with
  | none => .error .SessionTerminated
  | some c => (publish c e).map (fun c' => setCh (get_or_create r sid) sid c')

/-- Modelled from the spec: registry-level subscribe — the replayed buffer of
the session's channel, when the session exists. -/
def subscribeR (r : Registry) (sid : String) : Option (List ProgressEvent) :=
  (lookupCh r sid).map subscribe

/-- Number of independent buffers registered under one session id. -/
def countKey (r : Registry) (sid : String) : Nat :=
  (r.filter (fun p => p.1 == sid)).length

theorem publish_ok_buffer {c c' : Channel} {e : ProgressEvent}
    (h : publish c e = .ok c') : c'.buffer = c.buffer ++ [e] := by
  unfold publish at h
  cases hst : c.state with
  | terminated => rw [hst] at h; cases h
  | opened => rw [hst] at h; cases h; rfl

theorem lookupCh_get_or_create (r : Registry) (sid : String) :
    ∃ c, lookupCh (get_or_create r sid) sid = some c := by
  unfold get_or_create
  cases h : lookupCh r sid with
  | some c => exact ⟨c, h⟩
  | none => exact ⟨freshChannel, by simp [lookupCh]⟩

theorem get_or_create_idem (r : Registry) (sid : String) :
    get_or_create (get_or_create r sid) sid = get_or_create r sid := by
  rcases lookupCh_get_or_create r sid with ⟨c, hc⟩
  set r1 := get_or_create r sid with hr1
  unfold get_or_create
  rw [hc]

theorem lookupCh_setCh {r : Registry} {sid : String} {c : Channel}
    (h : lookupCh r sid = some c) (c' : Channel) :
    lookupCh (setCh r sid c') sid = some c' := by
  induction r with
  | nil => cases h
  | cons hd tl ih =>
      obtain ⟨k, ch⟩ := hd
      by_cases hk : k = sid
      · simp [setCh, lookupCh, hk]
      · unfold lookupCh at h
        rw [if_neg hk] at h
        unfold setCh
        rw [if_neg hk]
        unfold lookupCh
        rw [if_neg hk]
        exact ih h

theorem lookupCh_none_iff_countKey_zero (r : Registry) (sid : String) :
    lookupCh r sid = none ↔ countKey r sid = 0 := by
  induction r with
  | nil => simp [lookupCh, countKey]
  | cons hd tl ih =>
      obtain ⟨k, ch⟩ := hd
      by_cases hk : k = sid
      · subst hk
        simp [lookupCh, countKey, List.filter_cons]
      · have hbeq : (k == sid) = false := beq_eq_false_iff_ne.mpr hk
        have h1 : lookupCh ((k, ch) :: tl) sid = lookupCh tl sid := by
          rw [show lookupCh ((k, ch) :: tl) sid
                = if k = sid then some ch else lookupCh tl sid from rfl, if_neg hk]
        have h2 : countKey ((k, ch) :: tl) sid = countKey tl sid := by
          unfold countKey; rw [List.filter_cons, hbeq]; rfl
        rw [h1, h2]
        exact ih

theorem countKey_pos_of_lookup_some {r : Registry} {sid : String} {c : Channel}
    (h : lookupCh r sid = some c) : 1 ≤ countKey r sid := by
  by_contra hlt
  have h0 : countKey r sid = 0 := by omega
  have := (lookupCh_none_iff_countKey_zero r sid).mpr h0
  rw [h] at this
  cases this

/-- C5: `get_or_create` is idempotent — given a well-formed registry (at most one
buffer per session id), a repeated call returns the registry unchanged, exactly
one buffer exists for the id after the first call (never a second independent
buffer), and an event published through one call's handle is observed via a
subscription obtained through the other call's handle. -/
theorem c5_get_or_create_idempotent (r : Registry) (sid : String)
    (hwf : countKey r sid ≤ 1) :
    get_or_create (get_or_create r sid) sid = get_or_create r sid ∧
    countKey (get_or_create r sid) sid = 1 ∧
    ∀ e r₂, publishR (get_or_create r sid) sid e = .ok r₂ →
      ∃ evs, subscribeR r₂ sid = some evs ∧ e ∈ evs := by
  rcases lookupCh_get_or_create r sid with ⟨c, hc⟩
  refine ⟨get_or_create_idem r sid, ?_, ?_⟩
  · unfold get_or_create
    cases h : lookupCh r sid with
    | some c' =>
        have h1 := countKey_pos_of_lookup_some h
        show countKey r sid = 1
        omega
    | none =>
        have h0 := (lookupCh_none_iff_countKey_zero r sid).mp h
        have h1 : countKey ((sid, freshChannel) :: r) sid = countKey r sid + 1 := by
          unfold countKey
          rw [List.filter_cons]
          simp
        show countKey ((sid, freshChannel) :: r) sid = 1
        omega
  · intro e r₂ hpub
    have hev : publishR (get_or_create r sid) sid e =
        (publish c e).map (fun c' => setCh (get_or_create r sid) sid c') := by
      unfold publishR
      rw [get_or_create_idem, hc]
    rw [hev] at hpub
    cases hp : publish c e with
    | error err => rw [hp] at hpub; simp [Except.map] at hpub
    | ok c₂ =>
        rw [hp] at hpub
        simp only [Except.map] at hpub
        cases hpub
        refine ⟨subscribe c₂, ?_, ?_⟩
        · unfold subscribeR
          rw [lookupCh_setCh hc c₂]
          rfl
        · unfold subscribe
          rw [publish_ok_buffer hp]
          simp

/-- Witness for C5 on the empty registry. -/
theorem c5_get_or_create_idempotent_witness :
    get_or_create (get_or_create [] "s") "s" = get_or_create [] "s" ∧
    countKey (get_or_create [] "s") "s" = 1 ∧
    ∀ e r₂, publishR (get_or_create [] "s") "s" e = .ok r₂ →
      ∃ evs, subscribeR r₂ "s" = some evs ∧ e ∈ evs :=
  c5_get_or_create_idempotent [] "s" (by decide)

/-- Modelled from the spec: an open channel with no publish for longer than the
idle timeout is treated as abandoned. -/
def isIdleAbandoned (c : Channel) (now idleTimeout : Nat) : Bool :=
  decide (c.state = .opened) && decide (idleTimeout < now - c.lastPublish)

/-- Modelled from the spec: a terminated channel older than `max_age`. -/
def isExpiredTerminated (c : Channel) (now maxAge : Nat) : Bool :=
  decide (c.state = .terminated) &&
    (match c.terminatedAt with
     | some t => decide (maxAge < now - t)
     | none => false)

/-- Modelled from the spec: `reap_idle(max_age)` removes terminated channels
older than `max_age` and abandoned open channels (the latter transitioned to
`terminated` with a synthesized `error` event before removal); it returns the
surviving registry together with the removed channels in their final,
still-observable state. -/
def reap_idle : Registry → Nat → Nat → Nat → Registry × List (String × Channel)
  | [], _, _, _ => ([], [])
  | (sid, c) :: rest, now, maxAge, idleTimeout =>
      let res := reap_idle rest now maxAge idleTimeout
      if isIdleAbandoned c now idleTimeout then
        (res.1, (sid, idleReap c now) :: res.2)
      else if isExpiredTerminated c now maxAge then
        (res.1, (sid, c) :: res.2)
      else ((sid, c) :: res.1, res.2)

theorem reap_idle_mem_abandoned {r : Registry} {now maxAge idleTimeout : Nat}
    {sid : String} {c : Channel} (hmem : (sid, c) ∈ r)
    (hA : isIdleAbandoned c now idleTimeout = true) :
    (sid, idleReap c now) ∈ (reap_idle r now maxAge idleTimeout).2 := by
  induction r with
  | nil => cases hmem
  | cons hd tl ih =>
      obtain ⟨k, ch⟩ := hd
      rcases List.mem_cons.mp hmem with heq | htl
      · rw [Prod.mk.injEq] at heq
        obtain ⟨h1, h2⟩ := heq
        subst h1
        subst h2
        unfold reap_idle
        rw [hA]
        exact List.mem_cons_self _ _
      · have hrec := ih htl
        unfold reap_idle
        split
        · exact List.mem_cons_of_mem _ hrec
        · split
          · exact List.mem_cons_of_mem _ hrec
          · exact hrec

theorem reap_idle_mem_expired {r : Registry} {now maxAge idleTimeout : Nat}
    {sid : String} {c : Channel} (hmem : (sid, c) ∈ r)
    (hA : isIdleAbandoned c now idleTimeout = false)
    (hE : isExpiredTerminated c now maxAge = true) :
    (sid, c) ∈ (reap_idle r now maxAge idleTimeout).2 := by
  induction r with
  | nil => cases hmem
  | cons hd tl ih =>
      obtain ⟨k, ch⟩ := hd
      rcases List.mem_cons.mp hmem with heq | htl
      · rw [Prod.mk.injEq] at heq
        obtain ⟨h1, h2⟩ := heq
        subst h1
        subst h2
        unfold reap_idle
        rw [hA, hE]
        simp only [Bool.false_eq_true, if_false, if_true]
        exact List.mem_cons_self _ _
      · have hrec := ih htl
        unfold reap_idle
        split
        · exact List.mem_cons_of_mem _ hrec
        · split
          · exact List.mem_cons_of_mem _ hrec
          · exact hrec

theorem reap_idle_mem_kept {r : Registry} {now maxAge idleTimeout : Nat}
    {sid : String} {c : Channel} (hmem : (sid, c) ∈ r)
    (hA : isIdleAbandoned c now idleTimeout = false)
    (hE : isExpiredTerminated c now maxAge = false) :
    (sid, c) ∈ (reap_idle r now maxAge idleTimeout).1 := by
  induction r with
  | nil => cases hmem
  | cons hd tl ih =>
      obtain ⟨k, ch⟩ := hd
      rcases List.mem_cons.mp hmem with heq | htl
      · rw [Prod.mk.injEq] at heq
        obtain ⟨h1, h2⟩ := heq
        subst h1
        subst h2
        unfold reap_idle
        rw [hA, hE]
        simp only [Bool.false_eq_true, if_false]
        exact List.mem_cons_self _ _
      · have hrec := ih htl
        unfold reap_idle
        split
        · exact hrec
        · split
          · exact hrec
          · exact List.mem_cons_of_mem _ hrec

/-- C8: for every registry entry, `reap_idle` (i) transitions an abandoned open
channel (no publish for longer than the idle timeout) to `terminated`, appending
a synthesized `error` event to its still-observable buffer, before removing it;
(ii) removes a channel already terminated for longer than `max_age`; and
(iii) leaves every channel meeting neither condition unchanged in the registry. -/
theorem c8_reap_idle_semantics (r : Registry) (now maxAge idleTimeout : Nat)
    (sid : String) (c : Channel) (hmem : (sid, c) ∈ r) :
    (isIdleAbandoned c now idleTimeout = true →
      (sid, idleReap c now) ∈ (reap_idle r now maxAge idleTimeout).2 ∧
      (idleReap c now).state = .terminated ∧
      (idleReap c now).buffer = c.buffer ++ [synthesizedIdleError now] ∧
      (synthesizedIdleError now).event_type = .error) ∧
    (isIdleAbandoned c now idleTimeout = false → isExpiredTerminated c now maxAge = true →
      (sid, c) ∈ (reap_idle r now maxAge idleTimeout).2) ∧
    (isIdleAbandoned c now idleTimeout = false → isExpiredTerminated c now maxAge = false →
      (sid, c) ∈ (reap_idle r now maxAge idleTimeout).1) := by
  refine ⟨fun hA => ⟨reap_idle_mem_abandoned hmem hA, rfl, rfl, rfl⟩,
          fun hA hE => reap_idle_mem_expired hmem hA hE,
          fun hA hE => reap_idle_mem_kept hmem hA hE⟩

/-- A concrete abandoned channel: open, last publish at time 0. -/
def chanIdle : Channel :=
  { buffer := [], state := .opened, lastPublish := 0, terminatedAt := none }

/-- Witness for C8 on a one-entry registry holding an abandoned open channel. -/
theorem c8_reap_idle_semantics_witness :
    (isIdleAbandoned chanIdle 100 10 = true →
      ("s", idleReap chanIdle 100) ∈ (reap_idle [("s", chanIdle)] 100 50 10).2 ∧
      (idleReap chanIdle 100).state = .terminated ∧
      (idleReap chanIdle 100).buffer = chanIdle.buffer ++ [synthesizedIdleError 100] ∧
      (synthesizedIdleError 100).event_type = .error) ∧
    (isIdleAbandoned chanIdle 100 10 = false → isExpiredTerminated chanIdle 100 50 = true →
      ("s", chanIdle) ∈ (reap_idle [("s", chanIdle)] 100 50 10).2) ∧
    (isIdleAbandoned chanIdle 100 10 = false → isExpiredTerminated chanIdle 100 50 = false →
      ("s", chanIdle) ∈ (reap_idle [("s", chanIdle)] 100 50 10).1) :=
  c8_reap_idle_semantics [("s", chanIdle)] 100 50 10 "s" chanIdle
    (List.mem_singleton.mpr rfl)

/-- Modelled from the spec: one attempt of the remote completion call either
returns a response with its token usage, fails transiently (timeout, 5xx:
`RemoteUnavailable`), or is rejected outright (`RemoteRejected`). -/
inductive RemoteOutcome where
  | ok (resp : String) (tokens : Nat)
  | transientErr
  | rejectedErr
deriving DecidableEq, Repr

/-- Modelled from the spec: how the bounded-retry remote call ultimately fails. -/
inductive RemoteFailure where
  | transientExhausted
  | rejected
deriving DecidableEq, Repr

/-- Modelled from the spec: the driver's collaborators — text extractor
(`ExtractionFailed` on error), remote completion API (outcome per attempt
number), and schema validator (the parsed root field list, or `MalformedSchema`). -/
structure Collab where
  extract : Except Unit (String × Nat)
  remote : Nat → RemoteOutcome
  validate : String → Option (List String)

/-- Modelled from the spec: driver configuration — the extracted-text length
ceiling and the transient-retry bound. -/
structure DriverCfg where
  lengthCeiling : Nat
  maxRetries : Nat

/-- Modelled from the spec: the remote call retried on transient failures up to
the retry bound, failing immediately on a non-transient rejection; returns the
number of attempts used together with the final result. -/
def callRemote (remote : Nat → RemoteOutcome) : Nat → Nat → Nat × Except RemoteFailure (String × Nat)
  | attempt, 0 =>
      match remote attempt with
      | .ok resp tok => (attempt + 1, .ok (resp, tok))
      | .rejectedErr => (attempt + 1, .error .rejected)
      | .transientErr => (attempt + 1, .error .transientExhausted)
  | attempt, n + 1 =>
      match remote attempt with
      | .ok resp tok => (attempt + 1, .ok (resp, tok))
      | .rejectedErr => (attempt + 1, .error .rejected)
      | .transientErr => callRemote remote (attempt + 1) n

/-- Modelled from the spec: the `ParsingResponse` stage — publishes the single
`api_response` event, then either the `success` event (parse succeeded and the
root field list is non-empty) or the terminal `error` event tagged with the
parsing stage. -/
def parseStage (cb : Collab) (resp : String) (tokens : Nat) : List ProgressEvent :=
  mkEvent .api_response "Received response from the model" [("total_tokens", toString tokens)] ::
  match cb.validate resp with
  | none => [mkEvent .error "Response did not parse into a schema" [("stage", "parsing")]]
  | some fields =>
      if fields.isEmpty then
        [mkEvent .error "Schema has no fields" [("stage", "parsing")]]
      else
        [mkEvent .success "Schema generated"
          [("fields", toString fields.length), ("total_tokens", toString tokens)]]

/-- Modelled from the spec: the `RequestingCompletion` stage — one bounded-retry
remote call (retries are not surfaced as events), falling to the terminal
`error` event on failure. -/
def remoteStage (cfg : DriverCfg) (cb : Collab) : List ProgressEvent :=
  match (callRemote cb.remote 0 cfg.maxRetries).2 with
  | .error _ => [mkEvent .error "Remote call failed" [("stage", "api_request")]]
  | .ok (resp, tokens) => parseStage cb resp tokens

/-- Modelled from the spec: the `Extracting` stage — fails to `Error` only when
extraction raises or yields no text; over-long text is truncated to the
configured ceiling and reported in the `extraction` event data, then the driver
publishes `processing` and `api_request` and proceeds to the remote call. -/
def extractStage (cfg : DriverCfg) (cb : Collab) : List ProgressEvent :=
  match cb.extract with
  | .error _ => [mkEvent .error "Text extraction failed" [("stage", "extraction")]]
  | .ok (text, pages) =>
      if text.length = 0 then
        [mkEvent .error "No text could be extracted" [("stage", "extraction")]]
      else
        mkEvent .extraction "Text extracted"
          [("pages", toString pages),
           ("truncated", if cfg.lengthCeiling < text.length then "true" else "false")] ::
        mkEvent .processing "Building prompt" [] ::
        mkEvent .api_request "Sending request to the model"
          [("pages", toString pages),
           ("text_length", toString (min text.length cfg.lengthCeiling))] ::
        remoteStage cfg cb

/-- Modelled from the spec: one full run of the conversion pipeline driver,
narrated as its published event sequence. -/
def runDriver (cfg : DriverCfg) (cb : Collab) (filename : String) (filesize : Nat) :
    List ProgressEvent :=
  mkEvent .upload "File uploaded" [("filename", filename), ("size", toString filesize)] ::
  extractStage cfg cb

/-- Number of events of one type in a published sequence. -/
def countType (evs : List ProgressEvent) (t : EventType) : Nat :=
  (evs.filter (fun e => decide (e.event_type = t))).length

/-- Number of terminal events in a published sequence. -/
def terminalCount (evs : List ProgressEvent) : Nat :=
  (evs.filter (fun e => e.event_type.isTerminal)).length

theorem callRemote_transient_then_ok {remote : Nat → RemoteOutcome} {resp : String} {tok : Nat} :
    ∀ (k a rl : Nat), (∀ i, i < k → remote (a + i) = .transientErr) →
      remote (a + k) = .ok resp tok → k ≤ rl →
      callRemote remote a rl = (a + k + 1, .ok (resp, tok)) := by
  intro k
  induction k with
  | zero =>
      intro a rl _ hok _
      rw [Nat.add_zero] at hok
      cases rl with
      | zero => unfold callRemote; rw [hok]
      | succ n => unfold callRemote; rw [hok]
  | succ k ih =>
      intro a rl htr hok hle
      have h0 : remote a = .transientErr := by
        have := htr 0 (Nat.succ_pos k)
        rwa [Nat.add_zero] at this
      cases rl with
      | zero => omega
      | succ n =>
          unfold callRemote
          rw [h0]
          have harith : a + 1 + k = a + (k + 1) := by omega
          have := ih (a + 1) n
            (fun i hi => by rw [show a + 1 + i = a + (i + 1) from by omega]; exact htr (i + 1) (by omega))
            (by rwa [harith]) (by omega)
          rw [this, harith]

theorem callRemote_rejected {remote : Nat → RemoteOutcome} {a : Nat}
    (h : remote a = .rejectedErr) (rl : Nat) :
    callRemote remote a rl = (a + 1, .error .rejected) := by
  cases rl with
  | zero => unfold callRemote; rw [h]
  | succ n => unfold callRemote; rw [h]

theorem remoteStage_ok {cfg : DriverCfg} {cb : Collab} {resp : String} {tok : Nat}
    (h : (callRemote cb.remote 0 cfg.maxRetries).2 = .ok (resp, tok)) :
    remoteStage cfg cb = parseStage cb resp tok := by
  unfold remoteStage
  rw [h]

theorem remoteStage_err {cfg : DriverCfg} {cb : Collab} {f : RemoteFailure}
    (h : (callRemote cb.remote 0 cfg.maxRetries).2 = .error f) :
    remoteStage cfg cb = [mkEvent .error "Remote call failed" [("stage", "api_request")]] := by
  unfold remoteStage
  rw [h]

theorem parseStage_success {cb : Collab} {resp : String} {fields : List String} (tok : Nat)
    (hv : cb.validate resp = some fields) (hf : fields.isEmpty = false) :
    parseStage cb resp tok =
      [mkEvent .api_response "Received response from the model" [("total_tokens", toString tok)],
       mkEvent .success "Schema generated"
         [("fields", toString fields.length), ("total_tokens", toString tok)]] := by
  unfold parseStage
  rw [hv]
  simp [hf]

theorem extractStage_ok {cfg : DriverCfg} {cb : Collab} {text : String} {pages : Nat}
    (hx : cb.extract = .ok (text, pages)) (ht : text.length ≠ 0) :
    extractStage cfg cb =
      mkEvent .extraction "Text extracted"
        [("pages", toString pages),
         ("truncated", if cfg.lengthCeiling < text.length then "true" else "false")] ::
      mkEvent .processing "Building prompt" [] ::
      mkEvent .api_request "Sending request to the model"
        [("pages", toString pages),
         ("text_length", toString (min text.length cfg.lengthCeiling))] ::
      remoteStage cfg cb := by
  unfold extractStage
  simp only [hx]
  rw [if_neg ht]

theorem terminalCount_cons (e : ProgressEvent) (l : List ProgressEvent) :
    terminalCount (e :: l) =
      (if e.event_type.isTerminal then 1 else 0) + terminalCount l := by
  unfold terminalCount
  rw [List.filter_cons]
  split
  · simp [List.length_cons, Nat.add_comm]
  · simp

theorem parseStage_one_terminal (cb : Collab) (resp : String) (tok : Nat) :
    terminalCount (parseStage cb resp tok) = 1 := by
  unfold parseStage
  cases hv : cb.validate resp with
  | none => rfl
  | some fields =>
      dsimp only
      by_cases hf : fields.isEmpty = true
      · rw [if_pos hf]; rfl
      · rw [if_neg hf]; rfl

theorem remoteStage_one_terminal (cfg : DriverCfg) (cb : Collab) :
    terminalCount (remoteStage cfg cb) = 1 := by
  unfold remoteStage
  cases hr : (callRemote cb.remote 0 cfg.maxRetries).2 with
  | error f => rfl
  | ok rt =>
      obtain ⟨resp, tok⟩ := rt
      exact parseStage_one_terminal cb resp tok

theorem extractStage_one_terminal (cfg : DriverCfg) (cb : Collab) :
    terminalCount (extractStage cfg cb) = 1 := by
  unfold extractStage
  cases hx : cb.extract with
  | error u => rfl
  | ok tp =>
      obtain ⟨text, pages⟩ := tp
      dsimp only
      by_cases ht : text.length = 0
      · rw [if_pos ht]; rfl
      · rw [if_neg ht]
        rw [terminalCount_cons, terminalCount_cons, terminalCount_cons]
        simpa [mkEvent, EventType.isTerminal] using remoteStage_one_terminal cfg cb

theorem runDriver_one_terminal (cfg : DriverCfg) (cb : Collab) (fn : String) (fs : Nat) :
    terminalCount (runDriver cfg cb fn fs) = 1 := by
  unfold runDriver
  rw [terminalCount_cons]
  simp [mkEvent, EventType.isTerminal]
  exact extractStage_one_terminal cfg cb

/-- C6: when the remote call fails transiently k times (k within the retry
bound) and then succeeds, the run publishes exactly one `api_request` and one
`api_response` event (retries are not surfaced as extra events) and ends with
`success`; a non-transient rejection at the first attempt uses exactly one
attempt (no retry) and ends the run with the terminal `error` event; and every
run whatsoever publishes exactly one terminal event. -/
theorem c6_retry_semantics (cfg : DriverCfg) (cb : Collab) (fn : String) (fs : Nat)
    (text : String) (pages k : Nat) (resp : String) (tok : Nat) (fields : List String)
    (hx : cb.extract = .ok (text, pages)) (ht : text.length ≠ 0)
    (htr : ∀ i, i < k → cb.remote i = .transientErr)
    (hok : cb.remote k = .ok resp tok) (hk : k ≤ cfg.maxRetries)
    (hv : cb.validate resp = some fields) (hf : fields.isEmpty = false) :
    (countType (runDriver cfg cb fn fs) .api_request = 1 ∧
     countType (runDriver cfg cb fn fs) .api_response = 1 ∧
     (runDriver cfg cb fn fs).getLast? = some (mkEvent .success "Schema generated"
        [("fields", toString fields.length), ("total_tokens", toString tok)])) ∧
    (∀ (cb₂ : Collab) (text₂ : String) (pages₂ : Nat),
      cb₂.extract = .ok (text₂, pages₂) → text₂.length ≠ 0 → cb₂.remote 0 = .rejectedErr →
      callRemote cb₂.remote 0 cfg.maxRetries = (1, .error .rejected) ∧
      (runDriver cfg cb₂ fn fs).getLast? =
        some (mkEvent .error "Remote call failed" [("stage", "api_request")])) ∧
    (∀ (cfg₃ : DriverCfg) (cb₃ : Collab) (fn₃ : String) (fs₃ : Nat),
      terminalCount (runDriver cfg₃ cb₃ fn₃ fs₃) = 1) := by
  have hcall : callRemote cb.remote 0 cfg.maxRetries = (k + 1, .ok (resp, tok)) := by
    have := callRemote_transient_then_ok k 0 cfg.maxRetries
      (fun i hi => by simpa using htr i hi) (by simpa using hok) hk
    simpa using this
  have h2 : (callRemote cb.remote 0 cfg.maxRetries).2 = .ok (resp, tok) := by rw [hcall]
  have hrun : runDriver cfg cb fn fs =
      mkEvent .upload "File uploaded" [("filename", fn), ("size", toString fs)] ::
      mkEvent .extraction "Text extracted"
        [("pages", toString pages),
         ("truncated", if cfg.lengthCeiling < text.length then "true" else "false")] ::
      mkEvent .processing "Building prompt" [] ::
      mkEvent .api_request "Sending request to the model"
        [("pages", toString pages),
         ("text_length", toString (min text.length cfg.lengthCeiling))] ::
      [mkEvent .api_response "Received response from the model" [("total_tokens", toString tok)],
       mkEvent .success "Schema generated"
         [("fields", toString fields.length), ("total_tokens", toString tok)]] := by
    unfold runDriver
    rw [extractStage_ok hx ht, remoteStage_ok h2, parseStage_success tok hv hf]
  refine ⟨⟨?_, ?_, ?_⟩, ?_, ?_⟩
  · rw [hrun]; rfl
  · rw [hrun]; rfl
  · rw [hrun]; rfl
  · intro cb₂ text₂ pages₂ hx₂ ht₂ hrej
    have hc2 : callRemote cb₂.remote 0 cfg.maxRetries = (1, .error .rejected) := by
      simpa using callRemote_rejected hrej cfg.maxRetries
    have h2e : (callRemote cb₂.remote 0 cfg.maxRetries).2 = .error .rejected := by rw [hc2]
    refine ⟨hc2, ?_⟩
    unfold runDriver
    rw [extractStage_ok hx₂ ht₂, remoteStage_err h2e]
    rfl
  · exact runDriver_one_terminal

/-- A concrete collaborator set: extraction succeeds, the remote call fails
transiently twice before succeeding, validation returns a two-field schema. -/
def cbRetryTwice : Collab :=
  { extract := .ok ("hello", 2)
    remote := fun i => if i < 2 then .transientErr else .ok "resp" 7
    validate := fun s => if s = "resp" then some ["f1", "f2"] else none }

/-- A concrete driver configuration for witnesses. -/
def cfgSample : DriverCfg := { lengthCeiling := 100, maxRetries := 3 }

/-- Witness for C6: the transient-twice-then-ok collaborator. -/
theorem c6_retry_semantics_witness :
    (countType (runDriver cfgSample cbRetryTwice "a.pdf" 9) .api_request = 1 ∧
     countType (runDriver cfgSample cbRetryTwice "a.pdf" 9) .api_response = 1 ∧
     (runDriver cfgSample cbRetryTwice "a.pdf" 9).getLast? =
       some (mkEvent .success "Schema generated"
         [("fields", toString (["f1", "f2"] : List String).length), ("total_tokens", toString 7)])) ∧
    (∀ (cb₂ : Collab) (text₂ : String) (pages₂ : Nat),
      cb₂.extract = .ok (text₂, pages₂) → text₂.length ≠ 0 → cb₂.remote 0 = .rejectedErr →
      callRemote cb₂.remote 0 cfgSample.maxRetries = (1, .error .rejected) ∧
      (runDriver cfgSample cb₂ "a.pdf" 9).getLast? =
        some (mkEvent .error "Remote call failed" [("stage", "api_request")])) ∧
    (∀ (cfg₃ : DriverCfg) (cb₃ : Collab) (fn₃ : String) (fs₃ : Nat),
      terminalCount (runDriver cfg₃ cb₃ fn₃ fs₃) = 1) :=
  c6_retry_semantics cfgSample cbRetryTwice "a.pdf" 9 "hello" 2 2 "resp" 7 ["f1", "f2"]
    rfl (by decide)
    (fun i hi => by
      interval_cases i <;> rfl)
    rfl (by decide) rfl rfl

theorem remoteStage_no_extraction_stage (cfg : DriverCfg) (cb : Collab) :
    ∀ e ∈ remoteStage cfg cb, e.event_type = .error → ("stage", "extraction") ∈ e.data →
      False := by
  intro e he het hst
  revert het hst
  unfold remoteStage at he
  revert he
  cases hr : (callRemote cb.remote 0 cfg.maxRetries).2 with
  | error f =>
      intro he het hst
      rcases List.mem_singleton.mp he with rfl
      exact absurd hst (by decide)
  | ok rt =>
      obtain ⟨resp, tok⟩ := rt
      unfold parseStage
      intro he het hst
      rcases List.mem_cons.mp he with rfl | he
      · simp [mkEvent] at het
      · revert he
        cases hv : cb.validate resp with
        | none =>
            intro he
            rcases List.mem_singleton.mp he with rfl
            exact absurd hst (by decide)
        | some fields =>
            dsimp only
            by_cases hf : fields.isEmpty = true
            · rw [if_pos hf]
              intro he
              rcases List.mem_singleton.mp he with rfl
              exact absurd hst (by decide)
            · rw [if_neg hf]
              intro he
              rcases List.mem_singleton.mp he with rfl
              simp [mkEvent] at het

theorem extraction_error_source (cfg : DriverCfg) (cb : Collab)
    (hex : ∃ e ∈ extractStage cfg cb, e.event_type = .error ∧ ("stage", "extraction") ∈ e.data) :
    cb.extract = .error () ∨ ∃ t p, cb.extract = .ok (t, p) ∧ t.length = 0 := by
  cases hx : cb.extract with
  | error u => cases u; exact .inl rfl
  | ok tp =>
      obtain ⟨t, p⟩ := tp
      by_cases hl : t.length = 0
      · exact .inr ⟨t, p, rfl, hl⟩
      · exfalso
        rw [extractStage_ok hx hl] at hex
        rcases hex with ⟨e, he, het, hst⟩
        rcases List.mem_cons.mp he with rfl | he
        · simp [mkEvent] at het
        rcases List.mem_cons.mp he with rfl | he
        · simp [mkEvent] at het
        rcases List.mem_cons.mp he with rfl | he
        · simp [mkEvent] at het
        exact remoteStage_no_extraction_stage cfg cb e he het hst

/-- C7: when extraction returns non-empty text longer than the configured
ceiling, the driver publishes the `extraction` event with the truncation
reported in its data and proceeds (the next event is `processing`, not an
error); and an `error` event tagged stage=`extraction` can arise in a run only
when extraction raised `ExtractionFailed` or yielded no text. -/
theorem c7_truncation_not_rejection (cfg : DriverCfg) (cb : Collab) (fn : String) (fs : Nat)
    (text : String) (pages : Nat)
    (hx : cb.extract = .ok (text, pages)) (ht : text.length ≠ 0)
    (hc : cfg.lengthCeiling < text.length) :
    (runDriver cfg cb fn fs)[1]? = some (mkEvent .extraction "Text extracted"
      [("pages", toString pages), ("truncated", "true")]) ∧
    (runDriver cfg cb fn fs)[2]? = some (mkEvent .processing "Building prompt" []) ∧
    (∀ (cfg' : DriverCfg) (cb' : Collab) (fn' : String) (fs' : Nat),
      (∃ e ∈ runDriver cfg' cb' fn' fs',
        e.event_type = .error ∧ ("stage", "extraction") ∈ e.data) →
      cb'.extract = .error () ∨ ∃ t p, cb'.extract = .ok (t, p) ∧ t.length = 0) := by
  have hrun : runDriver cfg cb fn fs =
      mkEvent .upload "File uploaded" [("filename", fn), ("size", toString fs)] ::
      mkEvent .extraction "Text extracted"
        [("pages", toString pages), ("truncated", "true")] ::
      mkEvent .processing "Building prompt" [] ::
      mkEvent .api_request "Sending request to the model"
        [("pages", toString pages),
         ("text_length", toString (min text.length cfg.lengthCeiling))] ::
      remoteStage cfg cb := by
    unfold runDriver
    rw [extractStage_ok hx ht, if_pos hc]
  refine ⟨by rw [hrun]; rfl, by rw [hrun]; rfl, ?_⟩
  intro cfg' cb' fn' fs' hex
  rcases hex with ⟨e, he, het, hst⟩
  unfold runDriver at he
  rcases List.mem_cons.mp he with rfl | he
  · simp [mkEvent] at het
  · exact extraction_error_source cfg' cb' ⟨e, he, het, hst⟩

/-- A concrete collaborator whose extracted text exceeds the ceiling below. -/
def cbLongText : Collab :=
  { extract := .ok ("hello", 1)
    remote := fun _ => .ok "resp" 7
    validate := fun _ => some ["f1"] }

/-- A concrete configuration with a 3-character text ceiling. -/
def cfgSmallCeiling : DriverCfg := { lengthCeiling := 3, maxRetries := 1 }

/-- Witness for C7: five characters of text against a three-character ceiling. -/
theorem c7_truncation_not_rejection_witness :
    (runDriver cfgSmallCeiling cbLongText "a.pdf" 9)[1]? =
      some (mkEvent .extraction "Text extracted"
        [("pages", toString 1), ("truncated", "true")]) ∧
    (runDriver cfgSmallCeiling cbLongText "a.pdf" 9)[2]? =
      some (mkEvent .processing "Building prompt" []) ∧
    (∀ (cfg' : DriverCfg) (cb' : Collab) (fn' : String) (fs' : Nat),
      (∃ e ∈ runDriver cfg' cb' fn' fs',
        e.event_type = .error ∧ ("stage", "extraction") ∈ e.data) →
      cb'.extract = .error () ∨ ∃ t p, cb'.extract = .ok (t, p) ∧ t.length = 0) :=
  c7_truncation_not_rejection cfgSmallCeiling cbLongText "a.pdf" 9 "hello" 1
    rfl (by decide) (by decide)

/-- A small JSON value model for frontend event payloads
(`data: Record<string, any>` in `HistoryPage.tsx`). -/
inductive Json where
  | null
  | bool (b : Bool)
  | num (n : Int)
  | str (s : String)
  | arr (elems : List Json)
  | obj (fields : List (String × Json))

/-- JavaScript truthiness of a JSON value. -/
def Json.truthy : Json → Bool
  | .null => false
  | .bool b => b
  | .num n => decide (n ≠ 0)
  | .str s => decide (s ≠ "")
  | .arr _ => true
  | .obj _ => true

/-- First binding of a key in a JSON object's field list. -/
def jlookup : List (String × Json) → String → Option Json
  | [], _ => none
  | (k, v) :: rest, key => if k = key then some v else jlookup rest key

/-- Embedded from `src/frontend/src/pages/HistoryPage.tsx`: the
`ProgressEvent` interface of the `UploadWithAudit` component (`event_type`
is an open string on the wire). -/
structure FrontendEvent where
  timestamp : String
  event_type : String
  message : String
  data : Json

/-- The truthiness of `progressEvent.data?.schema`: the optional chain is
undefined (falsy) unless `data` is an object carrying a truthy `schema` field. -/
def dataSchemaTruthy (d : Json) : Bool :=
  match d with
  | .obj fields =>
      match jlookup fields "schema" with
      | some v => v.truthy
      | none => false
  | _ => false

/-- The `schema` field extracted by `progressEvent.data.schema`, if any. -/
def dataSchema (d : Json) : Option Json :=
  match d with
  | .obj fields => jlookup fields "schema"
  | _ => none

/-- The `UploadWithAudit` component state touched by the message handler:
the `uploading` flag, whether the `EventSource` is open, the accumulated
`events`, and the schema saved to session storage. -/
structure UploadState where
  uploading : Bool
  esOpen : Bool
  events : List FrontendEvent
  savedSchema : Option Json

/-- Embedded from `src/frontend/src/pages/HistoryPage.tsx`
(`UploadWithAudit`, `eventSource.onmessage`): the parsed event is appended to
`events`; on a `success` event with a truthy `data.schema` the schema is saved,
`uploading` is cleared and the event source is closed; on an `error` event
`uploading` is cleared and the event source is closed. -/
def onMessage (s : UploadState) (ev : FrontendEvent) : UploadState :=
  let s1 := { s with events := s.events ++ [ev] }
  let s2 :=
    if ev.event_type = "success" ∧ dataSchemaTruthy ev.data = true then
      { s1 with savedSchema := dataSchema ev.data, uploading := false, esOpen := false }
    else s1
  if ev.event_type = "error" then
    { s2 with uploading := false, esOpen := false }
  else s2

/-- C9: while an upload is in flight (source open, uploading set), the message
handler closes the event source and clears the uploading flag exactly when the
event is an `error` event or a `success` event whose data carries a truthy
`schema` field; in particular a `success` event without a schema leaves the
connection open and the uploading state unchanged; the event is always appended. -/
theorem c9_close_condition (s : UploadState) (ev : FrontendEvent)
    (hu : s.uploading = true) (he : s.esOpen = true) :
    (((onMessage s ev).esOpen = false ∧ (onMessage s ev).uploading = false) ↔
      (ev.event_type = "error" ∨
        (ev.event_type = "success" ∧ dataSchemaTruthy ev.data = true))) ∧
    (ev.event_type = "success" → dataSchemaTruthy ev.data = false →
      (onMessage s ev).esOpen = s.esOpen ∧ (onMessage s ev).uploading = s.uploading) ∧
    (onMessage s ev).events = s.events ++ [ev] := by
  refine ⟨?_, ?_, ?_⟩
  · by_cases hsucc : ev.event_type = "success" ∧ dataSchemaTruthy ev.data = true
    · by_cases herr : ev.event_type = "error"
      · simp [onMessage, hsucc, herr]
      · simp [onMessage, hsucc, herr]
    · by_cases herr : ev.event_type = "error"
      · simp [onMessage, hsucc, herr]
      · simp [onMessage, hsucc, herr, hu, he]
  · intro hs hd
    have hns : ¬(ev.event_type = "success" ∧ dataSchemaTruthy ev.data = true) := by
      simp [hd]
    have hne : ev.event_type ≠ "error" := by
      rw [hs]; decide
    simp [onMessage, hns, hne]
  · unfold onMessage
    split_ifs <;> rfl

/-- A concrete `success` event with no `schema` field in its data. -/
def evSuccessNoSchema : FrontendEvent :=
  { timestamp := "t0", event_type := "success", message := "done"
    data := .obj [("schema_size", .num 3)] }

/-- A concrete in-flight upload state. -/
def stateInFlight : UploadState :=
  { uploading := true, esOpen := true, events := [], savedSchema := none }

/-- Witness for C9: an in-flight state receiving a `success` event without a schema. -/
theorem c9_close_condition_witness :
    (((onMessage stateInFlight evSuccessNoSchema).esOpen = false ∧
      (onMessage stateInFlight evSuccessNoSchema).uploading = false) ↔
      (evSuccessNoSchema.event_type = "error" ∨
        (evSuccessNoSchema.event_type = "success" ∧
          dataSchemaTruthy evSuccessNoSchema.data = true))) ∧
    (evSuccessNoSchema.event_type = "success" →
      dataSchemaTruthy evSuccessNoSchema.data = false →
      (onMessage stateInFlight evSuccessNoSchema).esOpen = stateInFlight.esOpen ∧
      (onMessage stateInFlight evSuccessNoSchema).uploading = stateInFlight.uploading) ∧
    (onMessage stateInFlight evSuccessNoSchema).events =
      stateInFlight.events ++ [evSuccessNoSchema] :=
  c9_close_condition stateInFlight evSuccessNoSchema rfl rfl

/-- The effect of `handleSearch` in `HistoryPage`: either reload the full
unfiltered history or call the search endpoint with the query. -/
inductive HistoryAction where
  | loadFull
  | searchCall (q : String)
deriving DecidableEq, Repr

/-- Embedded from `src/frontend/src/pages/HistoryPage.tsx` (`handleSearch`):
`if (!searchQuery.trim()) { loadHistory(); return }` — a query that is empty
after trimming reloads the history; otherwise
`GET /history/search/{searchQuery}` is issued. -/
def handleSearch (searchQuery : String) : HistoryAction :=
  if searchQuery.trim.isEmpty then .loadFull else .searchCall searchQuery

/-- C10: a query that is empty or whitespace-only (i.e. empty after trimming)
does not hit the search endpoint and reloads the full history instead; the
search endpoint is called exactly for queries that survive trimming. -/
theorem c10_search_trims_whitespace (q : String) :
    (q.trim = "" → handleSearch q = .loadFull) ∧
    (q.trim ≠ "" → handleSearch q = .searchCall q) ∧
    (∀ r, handleSearch q = .searchCall r → q.trim ≠ "") := by
  refine ⟨?_, ?_, ?_⟩
  · intro h
    unfold handleSearch
    rw [if_pos ((String.isEmpty_iff q.trim).mpr h)]
  · intro h
    unfold handleSearch
    rw [if_neg (fun hc => h ((String.isEmpty_iff q.trim).mp hc))]
  · intro r hr h
    unfold handleSearch at hr
    rw [if_pos ((String.isEmpty_iff q.trim).mpr h)] at hr
    cases hr

/-- Witness for C10 at a whitespace-only query. -/
theorem c10_search_trims_whitespace_witness :
    ("  ".trim = "" → handleSearch "  " = .loadFull) ∧
    ("  ".trim ≠ "" → handleSearch "  " = .searchCall "  ") ∧
    (∀ r, handleSearch "  " = .searchCall r → "  ".trim ≠ "") :=
  c10_search_trims_whitespace "  "

end SwiftForm
